import Mathlib

/-
Verification of the Template Provisioning Engine of
create-purescript-deno-project against its specification.

The engine (createPurescriptDenoProject and its helpers) is embedded
shallowly: the filesystem is an association list from absolute path
strings to nodes, external effects (HTTP fetch, the unzip subprocess,
the npm subprocesses) are supplied by an explicit environment record,
and `Deno.exit(1)` via exitWithError is modelled as an error value that
aborts the rest of the run.  Every engine function returns the final
filesystem, the list of observable events it performed, and the error
it aborted with (if any).
-/

namespace CPDP

/-- File paths are plain strings, as in the source. -/
abbrev Path := String

/-- File contents as a byte sequence. -/
abbrev Bytes := List Nat

/-- The whitespace characters relevant to the manifests: the model of the
source-language String.prototype.trim strips these from both ends. -/
def isWhitespaceChar (c : Char) : Bool :=
  c = ' ' || c = '\t' || c = '\r' || c = '\n'

/-- Models String.prototype.trim.  All string helpers below work on the
character list of the string so that every definition evaluates by kernel
reduction. -/
def jsTrim (s : String) : String :=
  String.mk
    (((s.data.dropWhile isWhitespaceChar).reverse.dropWhile isWhitespaceChar).reverse)

/-- Models String.prototype.startsWith. -/
def jsStartsWith (pre s : String) : Bool :=
  pre.data.isPrefixOf s.data

/-- Models String.prototype.endsWith. -/
def jsEndsWith (suf s : String) : Bool :=
  suf.data.isSuffixOf s.data

/-- Models String.prototype.split with a one-character separator on the
character list: an empty input gives one empty segment, and each separator
occurrence starts a new segment, exactly as in the source language. -/
def splitChars (sep : Char) : List Char → List (List Char)
  | [] => [[]]
  | c :: rest =>
      let r := splitChars sep rest
      if c = sep then [] :: r
      else
        match r with
        | [] => [[c]]
        | h :: t => (c :: h) :: t

/-- Models String.prototype.split with a one-character separator. -/
def jsSplit (sep : Char) (s : String) : List String :=
  (splitChars sep s.data).map String.mk

/-- Models Array.prototype.join with a one-character separator. -/
def joinWith (sep : Char) (parts : List String) : String :=
  String.mk (List.intercalate [sep] (parts.map String.data))

/-- Models String.prototype.slice(n) for a nonnegative start. -/
def jsDrop (n : Nat) (s : String) : String :=
  String.mk (s.data.drop n)

/-- Models String.prototype.slice(0, -n): drop the last n characters. -/
def jsDropRight (n : Nat) (s : String) : String :=
  String.mk (s.data.take (s.data.length - n))

/-- A filesystem node: a regular file with its byte content, or a directory.
Directory children are represented by separate entries whose path extends the
directory path, so a directory node itself carries no data. -/
inductive FsNode where
  | file (content : Bytes)
  | dir
deriving DecidableEq, Repr

/-- The filesystem: an association list from full paths to nodes.  The most
recently written entry for a path shadows older ones (fsSet removes the old
entry, so paths are in fact unique in any state the model produces). -/
abbrev FS := List (Path × FsNode)

/-- Models Deno.stat restricted to what the engine inspects: the node at the
path, or none when the path does not exist (Deno.errors.NotFound). -/
def statFs (fs : FS) (p : Path) : Option FsNode :=
  fs.lookup p

/-- Overwrite or create the node at a path. -/
def fsSet (fs : FS) (p : Path) (node : FsNode) : FS :=
  (p, node) :: fs.filter (fun e => e.1 ≠ p)

/-- Models Deno.remove on a single path. -/
def fsRemove (fs : FS) (p : Path) : FS :=
  fs.filter (fun e => e.1 ≠ p)

/-- The paths strictly below a directory path.  Deno.readDir lists the
immediate children; the engine only asks whether there is at least one entry,
which is equivalent to asking for at least one strict descendant. -/
def dirEntries (fs : FS) (p : Path) : List Path :=
  (fs.filter (fun e => jsStartsWith (p ++ "/") e.1)).map (fun e => e.1)

/-- The error taxonomy of the spec.  In the source every failure goes through
exitWithError (print to stderr, Deno.exit(1)); the constructors name the
distinct exit sites. -/
inductive ProvisionError where
  | UsageError
  | TargetNotEmpty
  | TargetNotDirectory
  | ManifestNotFound
  | DownloadFailed (status : Nat)
  | UnzipFailed
  | CopyFailed
deriving DecidableEq, Repr

/-- Models validateTargetDirectory: stat the target; a missing path is fine;
an existing directory must have no entries; an existing non-directory is
rejected. -/
def validateTargetDirectory (fs : FS) (targetDirectory : Path) : Except ProvisionError Unit :=
  match statFs fs targetDirectory with
  | some .dir =>
      if dirEntries fs targetDirectory = [] then .ok () else .error .TargetNotEmpty
  | some (.file _) => .error .TargetNotDirectory
  | none => .ok ()

/-- Models posix isAbsolute from the vendored std path library: a path is
absolute iff it starts with the path separator. -/
def isAbsolute (p : Path) : Bool :=
  jsStartsWith "/" p

/-- Models posix resolve(cwd, p) for the already-normalized segment paths the
claims exercise: an absolute p is returned as is, otherwise p is appended to
cwd.  (Full resolve also collapses "." and ".." segments; no claim depends on
that normalization.) -/
def resolvePath (cwd p : Path) : Path :=
  if isAbsolute p then p else cwd ++ "/" ++ p

/-- The resolution step at the top of createPurescriptDenoProject. -/
def resolveTarget (cwd : Path) (targetDirectory : Path) : Path :=
  if isAbsolute targetDirectory then targetDirectory
  else resolvePath cwd targetDirectory

/-- A URL split as the WHATWG URL object exposes it to the engine: the part
before the pathname (scheme, host) and the pathname.  The engine only reads
and rewrites the pathname. -/
structure Url where
  origin : String
  pathname : String
deriving DecidableEq, Repr

/-- The string form of a URL, as import.meta.url is before being wrapped in
new URL(...). -/
def urlString (u : Url) : String :=
  u.origin ++ u.pathname

/-- The branch condition in createPurescriptDenoProject selecting the
materializer: import.meta.url.startsWith("file://"). -/
def isLocalUrl (u : String) : Bool :=
  jsStartsWith "file://" u

/-- Models url.pathname.split("/").slice(0, -1).join("/") (and, equivalently
for the slash-separated paths in play, path.dirname). -/
def parentPath (pathname : String) : String :=
  joinWith '/' (jsSplit '/' pathname).dropLast

/-- Models path.join for two already-clean segments, as used by the engine. -/
def pathJoin (a b : Path) : Path :=
  a ++ "/" ++ b

/-- The URL rewriting in downloadAndUnzipTemplate: keep the origin, replace
the trailing pathname segment by templates/(name).zip. -/
def archiveUrl (script : Url) (templateName : String) : Url :=
  { script with
    pathname := parentPath script.pathname ++ "/templates/" ++ templateName ++ ".zip" }

/-- Models Response.ok: the HTTP status is in the 2xx range. -/
def respOk (status : Nat) : Bool :=
  200 ≤ status && status ≤ 299

/-- The ambient process state and the external collaborators, captured as an
explicit record: the working directory, import.meta.url, the HTTP fetch
function (status and body per URL), the external unzip facility (given the
archive bytes, the destination directory and the current filesystem, it
returns the extracted filesystem, or none when the subprocess exits
non-zero), and the exit codes of external commands run with Deno.Command
(command line and working directory). -/
structure Env where
  cwd : Path
  scriptUrl : Url
  fetch : Url → Nat × Bytes
  unzipFn : Bytes → Path → FS → Option FS
  execCode : String → Path → Int

/-- Observable events of a run: a filesystem mutation at a path (mkdir,
file write, copy destination, removal, extraction target), the marker that a
materializer strategy started, and an external command execution with its
working directory and exit code. -/
inductive Event where
  | fsWrite (p : Path)
  | ranLocal
  | ranRemote
  | exec (cmd : String) (cwd : Path) (code : Int)
deriving DecidableEq, Repr

/-- The outcome of a (partial) run: the filesystem afterwards, the events
performed, and the error the process exited with, if any. -/
structure RunResult where
  fs : FS
  events : List Event
  error : Option ProvisionError
deriving DecidableEq, Repr

/-- All path prefixes of a slash-separated path, shortest first. -/
def pathPrefixes (p : Path) : List Path :=
  let parts := jsSplit '/' p
  (List.range parts.length).map (fun i => joinWith '/' (parts.take (i + 1)))

/-- One directory-creation step of recursive mkdir: create the directory
when nothing exists at its path yet, otherwise leave the filesystem alone. -/
def mkdirStep (acc : FS) (d : Path) : FS :=
  if (statFs acc d).isSome then acc else fsSet acc d .dir

/-- Models Deno.mkdir(p, recursive) on the happy paths the claims exercise:
every prefix of the path that does not exist yet becomes a directory;
existing nodes are left alone.  (Real mkdir fails when a prefix is a regular
file; the claims about mkdir are stated under the hypothesis that no prefix
is a file.) -/
def mkdirRec (fs : FS) (p : Path) : FS :=
  (pathPrefixes p).foldl mkdirStep fs

/-- Models unzipFile: run the external unzip with overwrite on the archive at
zipPath into destDir; a non-zero exit of the subprocess is fatal.  The
subprocess reads the archive bytes from the filesystem; a missing or
non-file archive path also makes it exit non-zero. -/
def unzipFile (env : Env) (fs : FS) (zipPath destDir : Path) : RunResult :=
  match statFs fs zipPath with
  | some (.file content) =>
      match env.unzipFn content destDir fs with
      | some fs2 => { fs := fs2, events := [.fsWrite destDir], error := none }
      | none => { fs := fs, events := [], error := some .UnzipFailed }
  | _ => { fs := fs, events := [], error := some .UnzipFailed }

/-- Models downloadAndUnzipTemplate: derive the archive URL from
import.meta.url, fetch it (a non-ok response is fatal and carries the
status), create the target directory, write the body to
target/(name).zip, unzip it into the target, then remove the temporary
archive.  An extraction failure exits the process before the removal. -/
def downloadAndUnzipTemplate (env : Env) (fs : FS)
    (targetDirectory templateName : String) : RunResult :=
  let url := archiveUrl env.scriptUrl templateName
  let (status, body) := env.fetch url
  if respOk status then
    let tempZipPath := pathJoin targetDirectory (templateName ++ ".zip")
    let fs1 := mkdirRec fs targetDirectory
    let fs2 := fsSet fs1 tempZipPath (.file body)
    let r := unzipFile env fs2 tempZipPath targetDirectory
    match r.error with
    | some e =>
        { fs := r.fs
          events := [.fsWrite targetDirectory, .fsWrite tempZipPath] ++ r.events
          error := some e }
    | none =>
        { fs := fsRemove r.fs tempZipPath
          events := [.fsWrite targetDirectory, .fsWrite tempZipPath] ++ r.events
                      ++ [.fsWrite tempZipPath]
          error := none }
  else
    { fs := fs, events := [], error := some (.DownloadFailed status) }

/-- The location of the template archive next to the engine module, as
computed by copyAndUnzipTemplate from import.meta.url. -/
def localTemplateZipPath (script : Url) (templateName : String) : Path :=
  pathJoin (pathJoin (parentPath script.pathname) "templates") (templateName ++ ".zip")

/-- Models copyAndUnzipTemplate: locate templates/(name).zip next to the
engine module, create the target directory, copy the archive to
target/(name).zip (a missing source makes Deno.copyFile throw, which is
fatal), unzip it into the target, then remove the copied archive.  An
extraction failure exits the process before the removal. -/
def copyAndUnzipTemplate (env : Env) (fs : FS)
    (targetDirectory templateName : String) : RunResult :=
  let templateZipPath := localTemplateZipPath env.scriptUrl templateName
  let fs1 := mkdirRec fs targetDirectory
  let destZipPath := pathJoin targetDirectory (templateName ++ ".zip")
  match statFs fs1 templateZipPath with
  | some (.file content) =>
      let fs2 := fsSet fs1 destZipPath (.file content)
      let r := unzipFile env fs2 destZipPath targetDirectory
      match r.error with
      | some e =>
          { fs := r.fs
            events := [.fsWrite targetDirectory, .fsWrite destZipPath] ++ r.events
            error := some e }
      | none =>
          { fs := fsRemove r.fs destZipPath
            events := [.fsWrite targetDirectory, .fsWrite destZipPath] ++ r.events
                        ++ [.fsWrite destZipPath]
            error := none }
  | _ =>
      { fs := fs1, events := [.fsWrite targetDirectory], error := some .CopyFailed }

/-- The options record CreateProjecOptions of the source (the typo in the
name is the source file name). -/
structure CreateProjecOptions where
  build : Bool
  template : String
deriving DecidableEq, Repr

/-- The defaultOptions constant. -/
def defaultOptions : CreateProjecOptions :=
  { build := false, template := "server" }

/-- A caller-supplied partial options record, each field optional, as the
engine accepts Partial of CreateProjecOptions. -/
structure PartialOptions where
  build : Option Bool
  template : Option String
deriving DecidableEq, Repr

/-- The spread merge at the top of the engine: caller-supplied fields win,
absent fields fall back to defaultOptions. -/
def mergeOptions (options : PartialOptions) : CreateProjecOptions :=
  { build := options.build.getD defaultOptions.build
    template := options.template.getD defaultOptions.template }

/-- The materializer dispatch inside createPurescriptDenoProject: the scheme
of import.meta.url is the only branch signal; the chosen strategy is marked
by a ranLocal or ranRemote event. -/
def materialize (env : Env) (fs : FS) (target templateName : Path) : RunResult :=
  if isLocalUrl (urlString env.scriptUrl) then
    let r := copyAndUnzipTemplate env fs target templateName
    { r with events := Event.ranLocal :: r.events }
  else
    let r := downloadAndUnzipTemplate env fs target templateName
    { r with events := Event.ranRemote :: r.events }

/-- The build block of createPurescriptDenoProject, run when opts.build is
set: npm install then npm run build, both with cwd set to the target, awaited
in sequence; the exit codes are read but never inspected.  (The two
console.log lines around the block are not modelled.) -/
def buildStep (env : Env) (target : Path) (r : RunResult) : RunResult :=
  let codeInstall := env.execCode "npm install" target
  let codeBuild := env.execCode "npm run build" target
  { r with events := r.events ++ [.exec "npm install" target codeInstall,
                                  .exec "npm run build" target codeBuild] }

/-- Models createPurescriptDenoProject: merge options, resolve a relative
target against the working directory, validate the target, materialize via
the strategy selected by the module origin, and optionally run the build
step.  Any error exits the process, skipping the rest. -/
def createPurescriptDenoProject (env : Env) (fs : FS) (targetDirectory : Path)
    (options : PartialOptions) : RunResult :=
  let opts := mergeOptions options
  let target := resolveTarget env.cwd targetDirectory
  match validateTargetDirectory fs target with
  | .error e => { fs := fs, events := [], error := some e }
  | .ok _ =>
      let r := materialize env fs target opts.template
      match r.error with
      | some _ => r
      | none => if opts.build then buildStep env target r else r

/-- The parsed-arguments record produced by the parseArgs call in the main
block (boolean build, string template with default "server", stopEarly),
with the flags the parser would collect under unrecognized keys kept
separately so validateArgs can reject them. -/
structure ParsedArgs where
  build : Bool
  template : String
  positional : List String
  unknown : List String
deriving DecidableEq, Repr

/-- Models the std parse-args loop restricted to the configuration used by
the main block (boolean: build; string: template; default template "server";
stopEarly) and to the token shapes that configuration distinguishes:
"--build", "--template=v", "--template v", a bare "--" (everything after it
is positional), any other dash-led token (an unrecognized flag key), and a
plain token, which by stopEarly ends parsing with itself and the rest as
positional.  (Short-flag grouping, negation and numeric conversion of the
positional tokens are features of the vendored parser this CLI never
reaches.) -/
def parseArgsFrom (b : Bool) (t : String) (u : List String) :
    List String → ParsedArgs
  | [] => { build := b, template := t, positional := [], unknown := u }
  | tok :: rest =>
      if tok = "--build" then
        parseArgsFrom true t u rest
      else if tok = "--template" then
        match rest with
        | [] => { build := b, template := "", positional := [], unknown := u }
        | v :: rest2 => parseArgsFrom b v u rest2
      else if jsStartsWith "--template=" tok then
        parseArgsFrom b (jsDrop "--template=".data.length tok) u rest
      else if tok = "--" then
        { build := b, template := t, positional := rest, unknown := u }
      else if jsStartsWith "-" tok && tok ≠ "-" then
        parseArgsFrom b t (u ++ [tok]) rest
      else
        { build := b, template := t, positional := tok :: rest, unknown := u }

/-- The parseArgs call of the main block, with its defaults. -/
def parseArgsMain (argv : List String) : ParsedArgs :=
  parseArgsFrom false "server" [] argv

/-- The target-directory selection of the main block:
args._[0] when present and truthy, else ".".  (The empty string is falsy in
the source language, so an empty first positional also falls back to ".".) -/
def cliTargetDirectory (pa : ParsedArgs) : Path :=
  match pa.positional with
  | [] => "."
  | t :: _ => if t = "" then "." else t

/-- Models the import.meta.main block: parse the arguments, reject unknown
keys or more than one positional (validateArgs), then run the engine with
the parsed record as options. -/
def cliMain (env : Env) (fs : FS) (argv : List String) : RunResult :=
  let pa := parseArgsMain argv
  if pa.unknown ≠ [] then
    { fs := fs, events := [], error := some .UsageError }
  else if pa.positional.length > 1 then
    { fs := fs, events := [], error := some .UsageError }
  else
    createPurescriptDenoProject env fs (cliTargetDirectory pa)
      { build := some pa.build, template := some pa.template }

/-- The manifest parsing shared by zipSingleTemplate and
validateProjectStructure: split the text on newlines, trim each line, keep
the non-empty lines. -/
def parseManifestText (text : String) : List String :=
  ((jsSplit '\n' text).map (fun line => jsTrim line)).filter
    (fun line => line.data.length > 0)

/-- The manifest read of zipSingleTemplate: the manifest file content when it
exists, parsed; a missing manifest is a fatal configuration error (the
script prints and exits), never an empty list. -/
def readManifest (content : Option String) : Except ProvisionError (List String) :=
  match content with
  | some text => .ok (parseManifestText text)
  | none => .error .ManifestNotFound

/-- The template file list of the manifest-driven local materializer
(the templateFiles constant). -/
def templateFiles : List String :=
  ["src/Main.purs", "src/Main.ts.template", "test/Test/Main.purs",
   ".gitignore.template", "package.json", "serve.ts.template", "spago.yaml",
   "tsconfig.json"]

/-- Models destinationPath: strip the .template suffix when present. -/
def destinationPath (filePath : String) : String :=
  if jsEndsWith ".template" filePath then
    jsDropRight ".template".data.length filePath
  else filePath

/-- One iteration of the copyTemplateFiles loop: compute the source path
under the template store, the destination under the target with the
.template suffix stripped, create the destination parent directories
recursively, and copy the byte content of the source (a missing source makes
Deno.copyFile throw, which is fatal). -/
def copyOneTemplateFile (templateDir targetDirectory : Path) (fs : FS)
    (filePath : String) : Except ProvisionError FS :=
  let srcPath := pathJoin templateDir filePath
  let destPath := pathJoin targetDirectory (destinationPath filePath)
  let destDir := parentPath destPath
  let fs1 := mkdirRec fs destDir
  match statFs fs1 srcPath with
  | some (.file content) => .ok (fsSet fs1 destPath (.file content))
  | _ => .error .CopyFailed

/-- Models copyTemplateFiles: every manifest entry is copied; the fan-out
with Promise.all over independent destination paths is modelled as a fold
(the spec notes the order is not semantically significant). -/
def copyTemplateFiles (templateDir targetDirectory : Path) (fs : FS) :
    Except ProvisionError FS :=
  templateFiles.foldlM (copyOneTemplateFile templateDir targetDirectory) fs


/-! Concrete fixtures used by the witnesses. -/

/-- A deterministic stand-in for the external unzip facility: extraction
writes one Main.purs file holding the archive bytes into the destination. -/
def sampleUnzip : Bytes → Path → FS → Option FS :=
  fun content dest fs => some (fsSet fs (pathJoin dest "Main.purs") (.file content))

/-- A concrete environment with the engine loaded from a local file URL. -/
def envLocal : Env :=
  { cwd := "/home/user"
    scriptUrl := { origin := "file://", pathname := "/app/mod.ts" }
    fetch := fun _ => (200, [7, 8])
    unzipFn := sampleUnzip
    execCode := fun _ _ => 0 }

/-- The same environment with the engine loaded over https. -/
def envRemote : Env :=
  { envLocal with
    scriptUrl := { origin := "https://example.com", pathname := "/cpdp/mod.ts" } }

/-- A remote environment whose fetch always answers 404 with an empty body. -/
def envRemote404 : Env :=
  { envRemote with fetch := fun _ => (404, []) }

/-- A remote environment whose unzip subprocess always exits non-zero. -/
def envRemoteBadZip : Env :=
  { envRemote with unzipFn := fun _ _ _ => none }

/-- A target directory holding one stale file. -/
def fsStale : FS := [("/t", .dir), ("/t/stale.txt", .file [1])]

/-- A local template store holding the server template archive. -/
def fsStore : FS := [("/app/templates/server.zip", .file [7, 8])]

/-- A local environment whose npm subprocesses exit non-zero. -/
def envLocalBuildFail : Env :=
  { envLocal with execCode := fun _ _ => 1 }

/-! Basic lemmas about the filesystem model. -/

theorem statFs_fsRemove (fs : FS) (p q : Path) :
    statFs (fsRemove fs p) q = if q = p then none else statFs fs q := by
  induction fs with
  | nil => simp [statFs, fsRemove]
  | cons e rest ih =>
      obtain ⟨k, v⟩ := e
      by_cases hqk : q = k
      · subst hqk
        have hbeq : (q == q) = true := beq_self_eq_true q
        by_cases hk : q = p
        · subst hk
          simpa [statFs, fsRemove, List.filter_cons, List.lookup] using ih
        · simp [statFs, fsRemove, List.filter_cons, List.lookup, hk,
            Ne.symm hk, hbeq]
      · have hbeq : (q == k) = false := by
          exact beq_eq_false_iff_ne.mpr hqk
        by_cases hk : k = p
        · subst hk
          simpa [statFs, fsRemove, List.filter_cons, List.lookup, hqk,
            hbeq] using ih
        · simpa [statFs, fsRemove, List.filter_cons, List.lookup, hqk, hk,
            hbeq] using ih

theorem statFs_fsSet (fs : FS) (p q : Path) (v : FsNode) :
    statFs (fsSet fs p v) q = if q = p then some v else statFs fs q := by
  have h := statFs_fsRemove fs p q
  by_cases hq : q = p
  · subst hq
    have hbeq : (q == q) = true := beq_self_eq_true q
    simp [statFs, fsSet, fsRemove, List.lookup, hbeq]
  · have hbeq : (q == p) = false := beq_eq_false_iff_ne.mpr hq
    simp only [statFs, fsRemove, ne_eq, decide_not] at h
    simp [statFs, fsSet, fsRemove, List.lookup, hq, hbeq, ne_eq, decide_not, h]

theorem statFs_mkdirStep_preserve (acc : FS) (d q : Path) (v : FsNode)
    (h : statFs acc q = some v) : statFs (mkdirStep acc d) q = some v := by
  unfold mkdirStep
  by_cases hs : (statFs acc d).isSome
  · simp [hs, h]
  · have hq : q ≠ d := by
      intro he
      subst he
      simp [h] at hs
    simp [hs, statFs_fsSet, hq, h]

theorem statFs_foldl_mkdirStep_preserve (l : List Path) (acc : FS) (q : Path)
    (v : FsNode) (h : statFs acc q = some v) :
    statFs (l.foldl mkdirStep acc) q = some v := by
  induction l generalizing acc with
  | nil => simpa using h
  | cons d rest ih =>
      simp only [List.foldl_cons]
      exact ih _ (statFs_mkdirStep_preserve acc d q v h)

theorem statFs_mkdirRec_preserve (fs : FS) (p q : Path) (v : FsNode)
    (h : statFs fs q = some v) : statFs (mkdirRec fs p) q = some v :=
  statFs_foldl_mkdirStep_preserve _ fs q v h

/-- A step at any path keeps the property that a given path is free or a
directory. -/
theorem mkdirStep_keeps_freeOrDir (acc : FS) (d q : Path)
    (h : statFs acc q = none ∨ statFs acc q = some .dir) :
    statFs (mkdirStep acc d) q = none ∨ statFs (mkdirStep acc d) q = some .dir := by
  unfold mkdirStep
  by_cases hs : (statFs acc d).isSome
  · simp [hs, h]
  · by_cases hq : q = d
    · subst hq
      simp [hs, statFs_fsSet]
    · simp [hs, statFs_fsSet, hq, h]

theorem mkdirStep_creates (acc : FS) (d : Path)
    (h : statFs acc d = none ∨ statFs acc d = some .dir) :
    statFs (mkdirStep acc d) d = some .dir := by
  unfold mkdirStep
  rcases h with h | h
  · simp [h, statFs_fsSet]
  · simp [h]

theorem statFs_foldl_mkdirStep_creates (l : List Path) (acc : FS)
    (h : ∀ d ∈ l, statFs acc d = none ∨ statFs acc d = some .dir) :
    ∀ d ∈ l, statFs (l.foldl mkdirStep acc) d = some .dir := by
  induction l generalizing acc with
  | nil => intro d hd; simp at hd
  | cons d0 rest ih =>
      intro d hd
      simp only [List.foldl_cons]
      rcases List.mem_cons.mp hd with hd | hd
      · subst hd
        exact statFs_foldl_mkdirStep_preserve rest _ d .dir
          (mkdirStep_creates acc d (h d (List.mem_cons_self d rest)))
      · exact ih (mkdirStep acc d0)
          (fun e he => mkdirStep_keeps_freeOrDir acc d0 e (h e (List.mem_cons_of_mem d0 he)))
          d hd

/-- Recursive directory creation makes every prefix of the path a directory,
provided no prefix is occupied by a regular file. -/
theorem statFs_mkdirRec_creates (fs : FS) (p : Path)
    (h : ∀ d ∈ pathPrefixes p, statFs fs d = none ∨ statFs fs d = some .dir) :
    ∀ d ∈ pathPrefixes p, statFs (mkdirRec fs p) d = some .dir :=
  statFs_foldl_mkdirStep_creates _ fs h

/-! Claim theorems. -/

/-- C2: for every filesystem and target path, the Target Validator succeeds
exactly when the path does not exist or exists as an empty directory; a
directory with at least one entry fails with TargetNotEmpty, and an existing
non-directory fails with TargetNotDirectory.  Relative target paths are
resolved against the working directory before validation (resolveTarget),
absolute ones are used as given. -/
theorem target_validator_spec (fs : FS) (p : Path) :
    (validateTargetDirectory fs p = .ok () ↔
      statFs fs p = none ∨ (statFs fs p = some .dir ∧ dirEntries fs p = [])) ∧
    (statFs fs p = some .dir → dirEntries fs p ≠ [] →
      validateTargetDirectory fs p = .error .TargetNotEmpty) ∧
    (∀ b, statFs fs p = some (.file b) →
      validateTargetDirectory fs p = .error .TargetNotDirectory) ∧
    (∀ cwd, isAbsolute p = false → resolveTarget cwd p = cwd ++ "/" ++ p) ∧
    (∀ cwd, isAbsolute p = true → resolveTarget cwd p = p) := by
  refine ⟨?_, ?_, ?_, ?_, ?_⟩
  · unfold validateTargetDirectory
    rcases h : statFs fs p with _ | node
    · simp
    · cases node with
      | file b => simp
      | dir =>
          by_cases hd : dirEntries fs p = [] <;> simp [hd]
  · intro h hne
    unfold validateTargetDirectory
    rw [h]
    simp [hne]
  · intro b h
    unfold validateTargetDirectory
    rw [h]
  · intro cwd habs
    simp [resolveTarget, resolvePath, habs]
  · intro cwd habs
    simp [resolveTarget, habs]

/-- Witness for C2 at concrete inputs: a directory with one entry is
rejected as TargetNotEmpty, and an absent path passes. -/
theorem target_validator_spec_witness :
    validateTargetDirectory [("/t", .dir), ("/t/stale.txt", .file [1])] "/t"
        = .error .TargetNotEmpty ∧
      validateTargetDirectory [] "/t" = .ok () :=
  ⟨(target_validator_spec [("/t", .dir), ("/t/stale.txt", .file [1])] "/t").2.1
      (by decide) (by decide),
   ((target_validator_spec [] "/t").1).mpr (Or.inl (by decide))⟩

/-- C1: provisioning into a pre-existing non-empty directory (after
resolving the target against the working directory) fails with
TargetNotEmpty, leaves the filesystem exactly as it was, and performs no
events at all: the validation runs before any materialization or build step
and nothing bypasses it. -/
theorem provision_nonempty_rejected (env : Env) (fs : FS)
    (targetDirectory : Path) (options : PartialOptions)
    (hdir : statFs fs (resolveTarget env.cwd targetDirectory) = some .dir)
    (hne : dirEntries fs (resolveTarget env.cwd targetDirectory) ≠ []) :
    createPurescriptDenoProject env fs targetDirectory options =
      { fs := fs, events := [], error := some .TargetNotEmpty } := by
  have hv : validateTargetDirectory fs (resolveTarget env.cwd targetDirectory)
      = .error .TargetNotEmpty :=
    (target_validator_spec fs _).2.1 hdir hne
  unfold createPurescriptDenoProject
  simp [hv]

/-- Witness for C1: a run of the engine against a non-empty directory at a
concrete environment is rejected without any event. -/
theorem provision_nonempty_rejected_witness :
    statFs fsStale (resolveTarget envLocal.cwd "/t") = some .dir ∧
    dirEntries fsStale (resolveTarget envLocal.cwd "/t") ≠ [] ∧
    createPurescriptDenoProject envLocal fsStale "/t"
        { build := none, template := none } =
      { fs := fsStale, events := [], error := some .TargetNotEmpty } :=
  ⟨by decide, by decide,
   provision_nonempty_rejected envLocal fsStale "/t"
     { build := none, template := none } (by decide) (by decide)⟩

/-- The events of unzipFile are at most one write at the destination. -/
theorem unzipFile_events (env : Env) (fs : FS) (zipPath destDir : Path) :
    (unzipFile env fs zipPath destDir).events = [] ∨
    (unzipFile env fs zipPath destDir).events = [.fsWrite destDir] := by
  unfold unzipFile
  rcases h : statFs fs zipPath with _ | node
  · simp
  · cases node with
    | file content =>
        rcases hu : env.unzipFn content destDir fs with _ | fs2 <;> simp [hu]
    | dir => simp

/-- Every event of the local materializer body is a filesystem write. -/
theorem copyAndUnzipTemplate_events (env : Env) (fs : FS) (t n : Path) :
    ∀ e ∈ (copyAndUnzipTemplate env fs t n).events, ∃ p, e = Event.fsWrite p := by
  intro e he
  simp only [copyAndUnzipTemplate] at he
  split at he
  · split at he
    · rcases unzipFile_events env
          (fsSet (mkdirRec fs t) (pathJoin t (n ++ ".zip")) (.file _))
          (pathJoin t (n ++ ".zip")) t with hu | hu <;>
        ( rw [hu] at he
          simp only [List.mem_append, List.mem_cons, List.mem_singleton,
            List.not_mem_nil, or_false, List.append_nil] at he
          aesop )
    · rcases unzipFile_events env
          (fsSet (mkdirRec fs t) (pathJoin t (n ++ ".zip")) (.file _))
          (pathJoin t (n ++ ".zip")) t with hu | hu <;>
        ( rw [hu] at he
          simp only [List.mem_append, List.mem_cons, List.mem_singleton,
            List.not_mem_nil, or_false, List.append_nil] at he
          aesop )
  · simp only [List.mem_singleton] at he
    subst he
    exact ⟨_, rfl⟩

/-- Every event of the remote materializer body is a filesystem write. -/
theorem downloadAndUnzipTemplate_events (env : Env) (fs : FS) (t n : Path) :
    ∀ e ∈ (downloadAndUnzipTemplate env fs t n).events, ∃ p, e = Event.fsWrite p := by
  intro e he
  simp only [downloadAndUnzipTemplate] at he
  split at he
  · split at he
    · rcases unzipFile_events env
          (fsSet (mkdirRec fs t) (pathJoin t (n ++ ".zip")) (.file _))
          (pathJoin t (n ++ ".zip")) t with hu | hu <;>
        ( rw [hu] at he
          simp only [List.mem_append, List.mem_cons, List.mem_singleton,
            List.not_mem_nil, or_false, List.append_nil] at he
          aesop )
    · rcases unzipFile_events env
          (fsSet (mkdirRec fs t) (pathJoin t (n ++ ".zip")) (.file _))
          (pathJoin t (n ++ ".zip")) t with hu | hu <;>
        ( rw [hu] at he
          simp only [List.mem_append, List.mem_cons, List.mem_singleton,
            List.not_mem_nil, or_false, List.append_nil] at he
          aesop )
  · simp at he

/-- Neither strategy marker occurs among the local materializer events. -/
theorem copyAndUnzipTemplate_count_markers (env : Env) (fs : FS) (t n : Path) :
    (copyAndUnzipTemplate env fs t n).events.count Event.ranLocal = 0 ∧
    (copyAndUnzipTemplate env fs t n).events.count Event.ranRemote = 0 := by
  constructor <;>
    ( rw [List.count_eq_zero]
      intro hmem
      rcases copyAndUnzipTemplate_events env fs t n _ hmem with ⟨p, hp⟩
      exact absurd hp (by simp) )

/-- Neither strategy marker occurs among the remote materializer events. -/
theorem downloadAndUnzipTemplate_count_markers (env : Env) (fs : FS) (t n : Path) :
    (downloadAndUnzipTemplate env fs t n).events.count Event.ranLocal = 0 ∧
    (downloadAndUnzipTemplate env fs t n).events.count Event.ranRemote = 0 := by
  constructor <;>
    ( rw [List.count_eq_zero]
      intro hmem
      rcases downloadAndUnzipTemplate_events env fs t n _ hmem with ⟨p, hp⟩
      exact absurd hp (by simp) )

/-- The dispatch marks exactly the strategy selected by the scheme of the
module origin. -/
theorem materialize_marker_count (env : Env) (fs : FS) (t n : Path) :
    ((materialize env fs t n).events.count Event.ranLocal
        = if isLocalUrl (urlString env.scriptUrl) then 1 else 0) ∧
    ((materialize env fs t n).events.count Event.ranRemote
        = if isLocalUrl (urlString env.scriptUrl) then 0 else 1) := by
  unfold materialize
  by_cases h : isLocalUrl (urlString env.scriptUrl)
  · simp only [h, if_true]
    refine ⟨?_, ?_⟩
    · simp [List.count_cons, (copyAndUnzipTemplate_count_markers env fs t n).1]
    · simp [List.count_cons, (copyAndUnzipTemplate_count_markers env fs t n).2]
  · simp only [h, if_false, Bool.false_eq_true]
    refine ⟨?_, ?_⟩
    · simp [List.count_cons, (downloadAndUnzipTemplate_count_markers env fs t n).1]
    · simp [List.count_cons, (downloadAndUnzipTemplate_count_markers env fs t n).2]


/-- C3: for every invocation that passes target validation, the strategy is
selected solely by the scheme of the identifier the engine module was loaded
from: a file scheme runs the Local materializer exactly once and the Remote
one never, any other scheme runs the Remote materializer exactly once and
the Local one never — in particular no fallback or retry of the other
strategy happens even when the chosen strategy fails. -/
theorem strategy_selection (env : Env) (fs : FS) (targetDirectory : Path)
    (options : PartialOptions)
    (hok : validateTargetDirectory fs (resolveTarget env.cwd targetDirectory)
      = .ok ()) :
    ((createPurescriptDenoProject env fs targetDirectory options).events.count
        Event.ranLocal
      = if isLocalUrl (urlString env.scriptUrl) then 1 else 0) ∧
    ((createPurescriptDenoProject env fs targetDirectory options).events.count
        Event.ranRemote
      = if isLocalUrl (urlString env.scriptUrl) then 0 else 1) := by
  have hm := materialize_marker_count env fs
    (resolveTarget env.cwd targetDirectory) (mergeOptions options).template
  unfold createPurescriptDenoProject
  simp only [hok]
  split
  · exact hm
  · split
    · unfold buildStep
      simp only [List.count_append]
      constructor
      · rw [hm.1]
        simp
      · rw [hm.2]
        simp
    · exact hm

/-- Witness for C3: with the engine loaded from a file URL and an absent
target, one ranLocal marker and no ranRemote marker occur. -/
theorem strategy_selection_witness :
    validateTargetDirectory fsStore (resolveTarget envLocal.cwd "/t") = .ok () ∧
    ((createPurescriptDenoProject envLocal fsStore "/t"
        { build := none, template := none }).events.count Event.ranLocal = 1 ∧
      (createPurescriptDenoProject envLocal fsStore "/t"
        { build := none, template := none }).events.count Event.ranRemote = 0) := by
  refine ⟨rfl, ?_⟩
  have h := strategy_selection envLocal fsStore "/t"
    { build := none, template := none } rfl
  rcases h with ⟨h1, h2⟩
  refine ⟨?_, ?_⟩
  · rw [h1]
    decide
  · rw [h2]
    decide


/-- C4: the Remote materializer derives the archive URL from the engine
origin, replacing the trailing pathname segment with templates/(name).zip;
a non-2xx response fails with DownloadFailed carrying the status code,
leaves the filesystem untouched and performs no event, so no (name).zip
temporary file is in the target after the failure when none was there
before. -/
theorem remote_download_failed (env : Env) (fs : FS) (t n : Path)
    (status : Nat) (body : Bytes)
    (hfetch : env.fetch (archiveUrl env.scriptUrl n) = (status, body))
    (hstatus : respOk status = false) :
    downloadAndUnzipTemplate env fs t n =
      { fs := fs, events := [], error := some (.DownloadFailed status) } ∧
    archiveUrl env.scriptUrl n =
      { origin := env.scriptUrl.origin
        pathname := parentPath env.scriptUrl.pathname
          ++ "/templates/" ++ n ++ ".zip" } ∧
    (statFs fs (pathJoin t (n ++ ".zip")) = none →
      statFs (downloadAndUnzipTemplate env fs t n).fs
        (pathJoin t (n ++ ".zip")) = none) := by
  have h1 : downloadAndUnzipTemplate env fs t n =
      { fs := fs, events := [], error := some (.DownloadFailed status) } := by
    simp only [downloadAndUnzipTemplate, hfetch]
    simp [hstatus]
  refine ⟨h1, rfl, ?_⟩
  intro h
  rw [h1]
  exact h

/-- Witness for C4: a 404 on the archive of the missing template fails with
DownloadFailed 404, leaving an empty filesystem empty. -/
theorem remote_download_failed_witness :
    envRemote404.fetch (archiveUrl envRemote404.scriptUrl "missing")
        = (404, []) ∧
    respOk 404 = false ∧
    (downloadAndUnzipTemplate envRemote404 [] "/t" "missing" =
        { fs := [], events := [], error := some (.DownloadFailed 404) } ∧
      archiveUrl envRemote404.scriptUrl "missing" =
        { origin := envRemote404.scriptUrl.origin
          pathname := parentPath envRemote404.scriptUrl.pathname
            ++ "/templates/" ++ "missing" ++ ".zip" } ∧
      (statFs ([] : FS) (pathJoin "/t" ("missing" ++ ".zip")) = none →
        statFs (downloadAndUnzipTemplate envRemote404 [] "/t" "missing").fs
          (pathJoin "/t" ("missing" ++ ".zip")) = none)) :=
  ⟨rfl, rfl, remote_download_failed envRemote404 [] "/t" "missing" 404 [] rfl rfl⟩

/-- C5 as written is false: when the unzip subprocess exits non-zero the
process exits before the removal, so the temporary archive
target/(template).zip is still present after the failed extraction. -/
theorem remote_cleanup_counterexample :
    (downloadAndUnzipTemplate envRemoteBadZip [] "/t" "server").error
        = some .UnzipFailed ∧
    statFs (downloadAndUnzipTemplate envRemoteBadZip [] "/t" "server").fs
        "/t/server.zip" = some (.file [7, 8]) := by
  constructor
  · rfl
  · decide

/-- C5 amended: in a remote run that reaches extraction, the temporary
archive is removed only when extraction succeeds; when extraction fails the
run aborts fatally with the archive left in place (the removal is never
attempted). -/
theorem remote_cleanup_amended (env : Env) (fs : FS) (t n : Path)
    (status : Nat) (body : Bytes)
    (hfetch : env.fetch (archiveUrl env.scriptUrl n) = (status, body))
    (hok : respOk status = true) :
    (∀ fs2, env.unzipFn body t
        (fsSet (mkdirRec fs t) (pathJoin t (n ++ ".zip")) (.file body))
          = some fs2 →
      (downloadAndUnzipTemplate env fs t n).error = none ∧
      statFs (downloadAndUnzipTemplate env fs t n).fs
        (pathJoin t (n ++ ".zip")) = none) ∧
    (env.unzipFn body t
        (fsSet (mkdirRec fs t) (pathJoin t (n ++ ".zip")) (.file body))
          = none →
      (downloadAndUnzipTemplate env fs t n).error = some .UnzipFailed ∧
      statFs (downloadAndUnzipTemplate env fs t n).fs
        (pathJoin t (n ++ ".zip")) = some (.file body)) := by
  have hset : statFs
      (fsSet (mkdirRec fs t) (pathJoin t (n ++ ".zip")) (.file body))
      (pathJoin t (n ++ ".zip")) = some (.file body) := by
    rw [statFs_fsSet]
    simp
  constructor
  · intro fs2 hu
    have hz : unzipFile env
        (fsSet (mkdirRec fs t) (pathJoin t (n ++ ".zip")) (.file body))
        (pathJoin t (n ++ ".zip")) t
        = { fs := fs2, events := [.fsWrite t], error := none } := by
      unfold unzipFile
      rw [hset]
      simp [hu]
    have hd : downloadAndUnzipTemplate env fs t n =
        { fs := fsRemove fs2 (pathJoin t (n ++ ".zip"))
          events := [.fsWrite t, .fsWrite (pathJoin t (n ++ ".zip"))]
            ++ [.fsWrite t] ++ [.fsWrite (pathJoin t (n ++ ".zip"))]
          error := none } := by
      simp only [downloadAndUnzipTemplate, hfetch]
      simp [hok, hz]
    rw [hd]
    refine ⟨rfl, ?_⟩
    rw [statFs_fsRemove]
    simp
  · intro hu
    have hz : unzipFile env
        (fsSet (mkdirRec fs t) (pathJoin t (n ++ ".zip")) (.file body))
        (pathJoin t (n ++ ".zip")) t
        = { fs := fsSet (mkdirRec fs t) (pathJoin t (n ++ ".zip")) (.file body)
            events := [], error := some .UnzipFailed } := by
      unfold unzipFile
      rw [hset]
      simp [hu]
    have hd : downloadAndUnzipTemplate env fs t n =
        { fs := fsSet (mkdirRec fs t) (pathJoin t (n ++ ".zip")) (.file body)
          events := [.fsWrite t, .fsWrite (pathJoin t (n ++ ".zip"))]
          error := some .UnzipFailed } := by
      simp only [downloadAndUnzipTemplate, hfetch]
      simp [hok, hz]
    rw [hd]
    exact ⟨rfl, hset⟩

/-- Witness for the amended C5 at a concrete failing extraction. -/
theorem remote_cleanup_amended_witness :
    envRemoteBadZip.fetch (archiveUrl envRemoteBadZip.scriptUrl "server")
        = (200, [7, 8]) ∧
    respOk 200 = true ∧
    envRemoteBadZip.unzipFn [7, 8] "/t"
        (fsSet (mkdirRec [] "/t") (pathJoin "/t" ("server" ++ ".zip"))
          (.file [7, 8])) = none ∧
    ((downloadAndUnzipTemplate envRemoteBadZip [] "/t" "server").error
        = some .UnzipFailed ∧
      statFs (downloadAndUnzipTemplate envRemoteBadZip [] "/t" "server").fs
        (pathJoin "/t" ("server" ++ ".zip")) = some (.file [7, 8])) :=
  ⟨rfl, rfl, rfl,
   (remote_cleanup_amended envRemoteBadZip [] "/t" "server" 200 [7, 8]
      rfl rfl).2 rfl⟩


/-- C9: provisioning the same template from the same backing archive bytes
through the Local materializer and through the Remote materializer produces
the same resulting filesystem (and the same outcome): both write the archive
to target/(name).zip, run the same extraction and remove the archive. -/
theorem cross_strategy_equivalence (env : Env) (fs : FS) (t n : Path)
    (status : Nat) (body : Bytes)
    (hfetch : env.fetch (archiveUrl env.scriptUrl n) = (status, body))
    (hok : respOk status = true)
    (hstore : statFs (mkdirRec fs t) (localTemplateZipPath env.scriptUrl n)
      = some (.file body)) :
    (copyAndUnzipTemplate env fs t n).fs
        = (downloadAndUnzipTemplate env fs t n).fs ∧
    (copyAndUnzipTemplate env fs t n).error
        = (downloadAndUnzipTemplate env fs t n).error := by
  have hcopy : copyAndUnzipTemplate env fs t n =
      (match (unzipFile env
          (fsSet (mkdirRec fs t) (pathJoin t (n ++ ".zip")) (.file body))
          (pathJoin t (n ++ ".zip")) t).error with
        | some e =>
            { fs := (unzipFile env
                (fsSet (mkdirRec fs t) (pathJoin t (n ++ ".zip")) (.file body))
                (pathJoin t (n ++ ".zip")) t).fs
              events := [.fsWrite t, .fsWrite (pathJoin t (n ++ ".zip"))]
                ++ (unzipFile env
                    (fsSet (mkdirRec fs t) (pathJoin t (n ++ ".zip")) (.file body))
                    (pathJoin t (n ++ ".zip")) t).events
              error := some e }
        | none =>
            { fs := fsRemove (unzipFile env
                (fsSet (mkdirRec fs t) (pathJoin t (n ++ ".zip")) (.file body))
                (pathJoin t (n ++ ".zip")) t).fs (pathJoin t (n ++ ".zip"))
              events := [.fsWrite t, .fsWrite (pathJoin t (n ++ ".zip"))]
                ++ (unzipFile env
                    (fsSet (mkdirRec fs t) (pathJoin t (n ++ ".zip")) (.file body))
                    (pathJoin t (n ++ ".zip")) t).events
                ++ [.fsWrite (pathJoin t (n ++ ".zip"))]
              error := none }) := by
    simp only [copyAndUnzipTemplate, hstore]
  have hdown : downloadAndUnzipTemplate env fs t n =
      (match (unzipFile env
          (fsSet (mkdirRec fs t) (pathJoin t (n ++ ".zip")) (.file body))
          (pathJoin t (n ++ ".zip")) t).error with
        | some e =>
            { fs := (unzipFile env
                (fsSet (mkdirRec fs t) (pathJoin t (n ++ ".zip")) (.file body))
                (pathJoin t (n ++ ".zip")) t).fs
              events := [.fsWrite t, .fsWrite (pathJoin t (n ++ ".zip"))]
                ++ (unzipFile env
                    (fsSet (mkdirRec fs t) (pathJoin t (n ++ ".zip")) (.file body))
                    (pathJoin t (n ++ ".zip")) t).events
              error := some e }
        | none =>
            { fs := fsRemove (unzipFile env
                (fsSet (mkdirRec fs t) (pathJoin t (n ++ ".zip")) (.file body))
                (pathJoin t (n ++ ".zip")) t).fs (pathJoin t (n ++ ".zip"))
              events := [.fsWrite t, .fsWrite (pathJoin t (n ++ ".zip"))]
                ++ (unzipFile env
                    (fsSet (mkdirRec fs t) (pathJoin t (n ++ ".zip")) (.file body))
                    (pathJoin t (n ++ ".zip")) t).events
                ++ [.fsWrite (pathJoin t (n ++ ".zip"))]
              error := none }) := by
    simp only [downloadAndUnzipTemplate, hfetch]
    simp only [hok, if_true]
  rw [hcopy, hdown]
  rcases (unzipFile env
      (fsSet (mkdirRec fs t) (pathJoin t (n ++ ".zip")) (.file body))
      (pathJoin t (n ++ ".zip")) t).error with _ | e <;> exact ⟨rfl, rfl⟩

/-- Witness for C9: with the engine fixture serving the same bytes locally
and remotely, both materializers leave the same files. -/
theorem cross_strategy_equivalence_witness :
    envLocal.fetch (archiveUrl envLocal.scriptUrl "server") = (200, [7, 8]) ∧
    respOk 200 = true ∧
    statFs (mkdirRec fsStore "/t")
        (localTemplateZipPath envLocal.scriptUrl "server")
      = some (.file [7, 8]) ∧
    ((copyAndUnzipTemplate envLocal fsStore "/t" "server").fs
        = (downloadAndUnzipTemplate envLocal fsStore "/t" "server").fs ∧
      (copyAndUnzipTemplate envLocal fsStore "/t" "server").error
        = (downloadAndUnzipTemplate envLocal fsStore "/t" "server").error) :=
  ⟨rfl, rfl, by decide,
   cross_strategy_equivalence envLocal fsStore "/t" "server" 200 [7, 8]
     rfl rfl (by decide)⟩


/-- C6: for a manifest entry, the copy step of the manifest-driven Local
materializer strips the .template suffix from the destination (and only
that), creates the destination parent directories recursively, and copies
the source byte content unchanged; the suffix convention holds on every
entry of the template file list. -/
theorem local_entry_copy_spec (templateDir target : Path) (fs : FS)
    (filePath : String) (content : Bytes)
    (hsrc : statFs
        (mkdirRec fs (parentPath (pathJoin target (destinationPath filePath))))
        (pathJoin templateDir filePath) = some (.file content))
    (hfree : ∀ d ∈ pathPrefixes
        (parentPath (pathJoin target (destinationPath filePath))),
      statFs fs d = none ∨ statFs fs d = some .dir)
    (hdp : pathJoin target (destinationPath filePath)
        ∉ pathPrefixes (parentPath (pathJoin target (destinationPath filePath)))) :
    copyOneTemplateFile templateDir target fs filePath =
      .ok (fsSet
        (mkdirRec fs (parentPath (pathJoin target (destinationPath filePath))))
        (pathJoin target (destinationPath filePath)) (.file content)) ∧
    statFs (fsSet
        (mkdirRec fs (parentPath (pathJoin target (destinationPath filePath))))
        (pathJoin target (destinationPath filePath)) (.file content))
      (pathJoin target (destinationPath filePath)) = some (.file content) ∧
    (∀ d ∈ pathPrefixes
        (parentPath (pathJoin target (destinationPath filePath))),
      statFs (fsSet
          (mkdirRec fs (parentPath (pathJoin target (destinationPath filePath))))
          (pathJoin target (destinationPath filePath)) (.file content))
        d = some .dir) ∧
    (∀ f ∈ templateFiles,
      (jsEndsWith ".template" f = true → destinationPath f ++ ".template" = f) ∧
      (jsEndsWith ".template" f = false → destinationPath f = f)) := by
  refine ⟨?_, ?_, ?_, by decide⟩
  · simp only [copyOneTemplateFile, hsrc]
  · rw [statFs_fsSet]
    simp
  · intro d hd
    rw [statFs_fsSet]
    have hdir := statFs_mkdirRec_creates fs
      (parentPath (pathJoin target (destinationPath filePath))) hfree d hd
    have hne : d ≠ pathJoin target (destinationPath filePath) := by
      intro he
      subst he
      exact hdp hd
    simp [hne, hdir]

/-- Witness for C6 at a concrete entry with the .template suffix. -/
theorem local_entry_copy_spec_witness :
    statFs
        (mkdirRec [("/store/src/Main.ts.template", FsNode.file [9])]
          (parentPath (pathJoin "/t" (destinationPath "src/Main.ts.template"))))
        (pathJoin "/store" "src/Main.ts.template") = some (.file [9]) ∧
    (∀ d ∈ pathPrefixes
        (parentPath (pathJoin "/t" (destinationPath "src/Main.ts.template"))),
      statFs [("/store/src/Main.ts.template", FsNode.file [9])] d = none ∨
        statFs [("/store/src/Main.ts.template", FsNode.file [9])] d
          = some .dir) ∧
    copyOneTemplateFile "/store" "/t"
        [("/store/src/Main.ts.template", FsNode.file [9])]
        "src/Main.ts.template" =
      .ok (fsSet
        (mkdirRec [("/store/src/Main.ts.template", FsNode.file [9])]
          (parentPath (pathJoin "/t" (destinationPath "src/Main.ts.template"))))
        (pathJoin "/t" (destinationPath "src/Main.ts.template"))
        (.file [9])) ∧
    destinationPath "src/Main.ts.template" = "src/Main.ts" :=
  ⟨by decide, by decide,
   (local_entry_copy_spec "/store" "/t"
      [("/store/src/Main.ts.template", FsNode.file [9])]
      "src/Main.ts.template" [9] (by decide) (by decide) (by decide)).1,
   by decide⟩

/-- C7: the Manifest Reader returns the newline-separated lines of the
manifest text, each trimmed, with empty lines discarded and the original
order preserved (the result is an order-preserving sublist of the trimmed
lines), and the absence of the manifest is the fatal ManifestNotFound error
rather than an empty list. -/
theorem manifest_reader_spec :
    (∀ text line, line ∈ parseManifestText text →
      (∃ raw ∈ jsSplit '\n' text, line = jsTrim raw) ∧ line ≠ "") ∧
    (∀ text,
      (parseManifestText text).Sublist ((jsSplit '\n' text).map jsTrim)) ∧
    readManifest none = .error .ManifestNotFound ∧
    (∀ text, readManifest (some text) = .ok (parseManifestText text)) := by
  refine ⟨?_, ?_, rfl, fun _ => rfl⟩
  · intro text line hline
    unfold parseManifestText at hline
    rcases List.mem_filter.mp hline with ⟨hmem, hlen⟩
    rcases List.mem_map.mp hmem with ⟨raw, hraw, hline2⟩
    refine ⟨⟨raw, hraw, hline2.symm⟩, ?_⟩
    intro he
    subst he
    simp at hlen
  · intro text
    exact List.filter_sublist _

/-- Witness for C7: membership consequence at a concrete manifest text. -/
theorem manifest_reader_spec_witness :
    ("a.purs" ∈ parseManifestText " a.purs \n\nb.yaml") ∧
    ((∃ raw ∈ jsSplit '\n' " a.purs \n\nb.yaml", "a.purs" = jsTrim raw) ∧
      "a.purs" ≠ "") :=
  ⟨by decide,
   manifest_reader_spec.1 " a.purs \n\nb.yaml" "a.purs" (by decide)⟩


/-- C8: when the merged options enable the build, a run whose materializer
succeeded executes npm install and then npm run build, both with the working
directory set to the resolved target, in that order, and reports overall
success (error none) whatever exit codes the two commands return (the codes
are recorded in the events but never inspected). -/
theorem build_trigger_spec (env : Env) (fs : FS) (targetDirectory : Path)
    (options : PartialOptions)
    (hbuild : (mergeOptions options).build = true)
    (hok : validateTargetDirectory fs (resolveTarget env.cwd targetDirectory)
      = .ok ())
    (hmat : (materialize env fs (resolveTarget env.cwd targetDirectory)
        (mergeOptions options).template).error = none) :
    createPurescriptDenoProject env fs targetDirectory options =
      { fs := (materialize env fs (resolveTarget env.cwd targetDirectory)
            (mergeOptions options).template).fs
        events := (materialize env fs (resolveTarget env.cwd targetDirectory)
            (mergeOptions options).template).events
          ++ [.exec "npm install" (resolveTarget env.cwd targetDirectory)
                (env.execCode "npm install"
                  (resolveTarget env.cwd targetDirectory)),
              .exec "npm run build" (resolveTarget env.cwd targetDirectory)
                (env.execCode "npm run build"
                  (resolveTarget env.cwd targetDirectory))]
        error := none } := by
  rcases hr : materialize env fs (resolveTarget env.cwd targetDirectory)
      (mergeOptions options).template with ⟨rfs, revents, rerr⟩
  have herr : rerr = none := by
    rw [hr] at hmat
    exact hmat
  subst herr
  unfold createPurescriptDenoProject
  simp only [hok, hr, hbuild, buildStep]
  simp

/-- Witness for C8: with both npm commands exiting 1, the run still reports
success and records both executions in order with cwd at the target. -/
theorem build_trigger_spec_witness :
    (mergeOptions { build := some true, template := none }).build = true ∧
    validateTargetDirectory fsStore
        (resolveTarget envLocalBuildFail.cwd "/t") = .ok () ∧
    (materialize envLocalBuildFail fsStore
        (resolveTarget envLocalBuildFail.cwd "/t")
        (mergeOptions { build := some true, template := none }).template).error
      = none ∧
    createPurescriptDenoProject envLocalBuildFail fsStore "/t"
        { build := some true, template := none } =
      { fs := (materialize envLocalBuildFail fsStore
            (resolveTarget envLocalBuildFail.cwd "/t")
            (mergeOptions { build := some true, template := none }).template).fs
        events := (materialize envLocalBuildFail fsStore
            (resolveTarget envLocalBuildFail.cwd "/t")
            (mergeOptions { build := some true, template := none }).template).events
          ++ [.exec "npm install" (resolveTarget envLocalBuildFail.cwd "/t")
                (envLocalBuildFail.execCode "npm install"
                  (resolveTarget envLocalBuildFail.cwd "/t")),
              .exec "npm run build" (resolveTarget envLocalBuildFail.cwd "/t")
                (envLocalBuildFail.execCode "npm run build"
                  (resolveTarget envLocalBuildFail.cwd "/t"))]
        error := none } :=
  ⟨rfl, rfl, rfl,
   build_trigger_spec envLocalBuildFail fsStore "/t"
     { build := some true, template := none } rfl rfl rfl⟩

/-- C10: with zero command-line arguments, parsing yields build false,
template "server" and no positional argument; the main block then defaults
the target directory to "." and invokes the engine with exactly those
options, rather than failing for a missing argument; "." is relative, so it
resolves against the working directory. -/
theorem cli_defaults_spec (env : Env) (fs : FS) :
    parseArgsMain [] =
      { build := false, template := "server",
        positional := [], unknown := [] } ∧
    cliTargetDirectory (parseArgsMain []) = "." ∧
    cliMain env fs [] =
      createPurescriptDenoProject env fs "."
        { build := some false, template := some "server" } ∧
    isAbsolute "." = false ∧
    resolveTarget env.cwd "." = env.cwd ++ "/" ++ "." :=
  ⟨rfl, rfl, rfl, rfl, rfl⟩

end CPDP
